import Mathlib

/-!
Verification development for a 3×3 twisty-puzzle core: a 54-facelet state
model, an 18-generator move engine, a scrambler, heuristic cost estimators,
a move-sequence optimizer and a multi-strategy solver.  Definitions are
shallow embeddings of the corresponding source functions
(`src/core/moves.py`, `src/core/cube.py`, `src/algorithms/astar_solver.py`,
`src/algorithms/heuristics.py`, `src/algorithms/utils.py`).
-/

/-- A cube state: a list of 54 color labels (`RubikCube.state`). -/
abbrev CState := List Nat

/-- Read the label at position `i` (numpy `state[i]`). -/
def nth (s : CState) (i : Nat) : Nat := s.getD i 0

/-- Perform a batch of single-position writes, left to right.  Models a
numpy fancy-index assignment `state[[i₁,…]] = [v₁,…]` whose right-hand side
has already been evaluated. -/
def writes : CState → List (Nat × Nat) → CState
  | s, [] => s
  | s, (i, v) :: ps => writes (s.set i v) ps

/-- `MoveEngine._rotate_face_clockwise`: rotate face `k` (indices
`9k..9k+8`, row-major 3×3) by 90° clockwise, `np.rot90(face, -1)`. -/
def rotFaceCW (s : CState) (k : Nat) : CState :=
  writes s [(k*9+0, nth s (k*9+6)), (k*9+1, nth s (k*9+3)), (k*9+2, nth s (k*9+0)),
            (k*9+3, nth s (k*9+7)), (k*9+4, nth s (k*9+4)), (k*9+5, nth s (k*9+1)),
            (k*9+6, nth s (k*9+8)), (k*9+7, nth s (k*9+5)), (k*9+8, nth s (k*9+2))]

/-- `MoveEngine._rotate_face_counterclockwise`: rotate face `k` by 90°
counterclockwise, `np.rot90(face, 1)` (the duplicated line in the source
recomputes the same rotation from the unmodified face, so the net effect
is a single counterclockwise rotation). -/
def rotFaceCCW (s : CState) (k : Nat) : CState :=
  writes s [(k*9+0, nth s (k*9+2)), (k*9+1, nth s (k*9+5)), (k*9+2, nth s (k*9+8)),
            (k*9+3, nth s (k*9+1)), (k*9+4, nth s (k*9+4)), (k*9+5, nth s (k*9+7)),
            (k*9+6, nth s (k*9+0)), (k*9+7, nth s (k*9+3)), (k*9+8, nth s (k*9+6))]

/-- `MoveEngine._move_U`. -/
def moveU (s : CState) : CState :=
  let s1 := rotFaceCW s 4
  let t0 := nth s1 0; let t1 := nth s1 1; let t2 := nth s1 2
  let s2 := writes s1 [(0, nth s1 27), (1, nth s1 28), (2, nth s1 29)]
  let s3 := writes s2 [(27, nth s2 18), (28, nth s2 19), (29, nth s2 20)]
  let s4 := writes s3 [(18, nth s3 9), (19, nth s3 10), (20, nth s3 11)]
  writes s4 [(9, t0), (10, t1), (11, t2)]

/-- `MoveEngine._move_U_prime`. -/
def moveUp (s : CState) : CState :=
  let s1 := rotFaceCCW s 4
  let t0 := nth s1 0; let t1 := nth s1 1; let t2 := nth s1 2
  let s2 := writes s1 [(0, nth s1 9), (1, nth s1 10), (2, nth s1 11)]
  let s3 := writes s2 [(9, nth s2 18), (10, nth s2 19), (11, nth s2 20)]
  let s4 := writes s3 [(18, nth s3 27), (19, nth s3 28), (20, nth s3 29)]
  writes s4 [(27, t0), (28, t1), (29, t2)]

/-- `MoveEngine._move_U2` (two clockwise quarter turns). -/
def moveU2 (s : CState) : CState := moveU (moveU s)

/-- `MoveEngine._move_D`. -/
def moveD (s : CState) : CState :=
  let s1 := rotFaceCW s 5
  let t0 := nth s1 6; let t1 := nth s1 7; let t2 := nth s1 8
  let s2 := writes s1 [(6, nth s1 15), (7, nth s1 16), (8, nth s1 17)]
  let s3 := writes s2 [(15, nth s2 24), (16, nth s2 25), (17, nth s2 26)]
  let s4 := writes s3 [(24, nth s3 33), (25, nth s3 34), (26, nth s3 35)]
  writes s4 [(33, t0), (34, t1), (35, t2)]

/-- `MoveEngine._move_D_prime`. -/
def moveDp (s : CState) : CState :=
  let s1 := rotFaceCCW s 5
  let t0 := nth s1 6; let t1 := nth s1 7; let t2 := nth s1 8
  let s2 := writes s1 [(6, nth s1 33), (7, nth s1 34), (8, nth s1 35)]
  let s3 := writes s2 [(33, nth s2 24), (34, nth s2 25), (35, nth s2 26)]
  let s4 := writes s3 [(24, nth s3 15), (25, nth s3 16), (26, nth s3 17)]
  writes s4 [(15, t0), (16, t1), (17, t2)]

/-- `MoveEngine._move_D2`. -/
def moveD2 (s : CState) : CState := moveD (moveD s)

/-- `MoveEngine._move_L`. -/
def moveL (s : CState) : CState :=
  let s1 := rotFaceCW s 3
  let t0 := nth s1 0; let t1 := nth s1 3; let t2 := nth s1 6
  let s2 := writes s1 [(0, nth s1 45), (3, nth s1 48), (6, nth s1 51)]
  let s3 := writes s2 [(45, nth s2 24), (48, nth s2 21), (51, nth s2 18)]
  let s4 := writes s3 [(24, nth s3 36), (21, nth s3 39), (18, nth s3 42)]
  writes s4 [(36, t0), (39, t1), (42, t2)]

/-- `MoveEngine._move_L_prime`. -/
def moveLp (s : CState) : CState :=
  let s1 := rotFaceCCW s 3
  let t0 := nth s1 0; let t1 := nth s1 3; let t2 := nth s1 6
  let s2 := writes s1 [(0, nth s1 36), (3, nth s1 39), (6, nth s1 42)]
  let s3 := writes s2 [(36, nth s2 24), (39, nth s2 21), (42, nth s2 18)]
  let s4 := writes s3 [(24, nth s3 45), (21, nth s3 48), (18, nth s3 51)]
  writes s4 [(45, t0), (48, t1), (51, t2)]

/-- `MoveEngine._move_L2`. -/
def moveL2 (s : CState) : CState := moveL (moveL s)

/-- `MoveEngine._move_R`. -/
def moveR (s : CState) : CState :=
  let s1 := rotFaceCW s 1
  let t0 := nth s1 2; let t1 := nth s1 5; let t2 := nth s1 8
  let s2 := writes s1 [(2, nth s1 38), (5, nth s1 41), (8, nth s1 44)]
  let s3 := writes s2 [(38, nth s2 20), (41, nth s2 23), (44, nth s2 26)]
  let s4 := writes s3 [(20, nth s3 47), (23, nth s3 50), (26, nth s3 53)]
  writes s4 [(47, t0), (50, t1), (53, t2)]

/-- `MoveEngine._move_R_prime`. -/
def moveRp (s : CState) : CState :=
  let s1 := rotFaceCCW s 1
  let t0 := nth s1 2; let t1 := nth s1 5; let t2 := nth s1 8
  let s2 := writes s1 [(2, nth s1 47), (5, nth s1 50), (8, nth s1 53)]
  let s3 := writes s2 [(47, nth s2 20), (50, nth s2 23), (53, nth s2 26)]
  let s4 := writes s3 [(20, nth s3 38), (23, nth s3 41), (26, nth s3 44)]
  writes s4 [(38, t0), (41, t1), (44, t2)]

/-- `MoveEngine._move_R2`. -/
def moveR2 (s : CState) : CState := moveR (moveR s)

/-- `MoveEngine._move_F`.  Transcribed assignment for assignment; the
edge-strip cycle of the source is kept exactly as written there. -/
def moveF (s : CState) : CState :=
  let s1 := rotFaceCW s 0
  let t0 := nth s1 42; let t1 := nth s1 43; let t2 := nth s1 44
  let s2 := writes s1 [(42, nth s1 35), (43, nth s1 32), (44, nth s1 29)]
  let s3 := writes s2 [(35, nth s2 47), (32, nth s2 46), (29, nth s2 45)]
  let s4 := writes s3 [(47, nth s3 9), (46, nth s3 12), (45, nth s3 15)]
  writes s4 [(9, t2), (12, t1), (15, t0)]

/-- `MoveEngine._move_F_prime`. -/
def moveFp (s : CState) : CState :=
  let s1 := rotFaceCCW s 0
  let t0 := nth s1 42; let t1 := nth s1 43; let t2 := nth s1 44
  let s2 := writes s1 [(42, nth s1 9), (43, nth s1 12), (44, nth s1 15)]
  let s3 := writes s2 [(9, nth s2 47), (12, nth s2 46), (15, nth s2 45)]
  let s4 := writes s3 [(47, nth s3 35), (46, nth s3 32), (45, nth s3 29)]
  writes s4 [(35, t2), (32, t1), (29, t0)]

/-- `MoveEngine._move_F2`. -/
def moveF2 (s : CState) : CState := moveF (moveF s)

/-- `MoveEngine._move_B`. -/
def moveB (s : CState) : CState :=
  let s1 := rotFaceCW s 2
  let t0 := nth s1 0; let t1 := nth s1 1; let t2 := nth s1 2
  let s2 := writes s1 [(0, nth s1 9), (1, nth s1 10), (2, nth s1 11)]
  let s3 := writes s2 [(9, nth s2 53), (10, nth s2 52), (11, nth s2 51)]
  let s4 := writes s3 [(53, nth s3 35), (52, nth s3 34), (51, nth s3 33)]
  writes s4 [(35, t0), (34, t1), (33, t2)]

/-- `MoveEngine._move_B_prime`. -/
def moveBp (s : CState) : CState :=
  let s1 := rotFaceCCW s 2
  let t0 := nth s1 0; let t1 := nth s1 1; let t2 := nth s1 2
  let s2 := writes s1 [(0, nth s1 35), (1, nth s1 34), (2, nth s1 33)]
  let s3 := writes s2 [(35, nth s2 53), (34, nth s2 52), (33, nth s2 51)]
  let s4 := writes s3 [(53, nth s3 9), (52, nth s3 10), (51, nth s3 11)]
  writes s4 [(9, t0), (10, t1), (11, t2)]

/-- `MoveEngine._move_B2`. -/
def moveB2 (s : CState) : CState := moveB (moveB s)

/-- The 18 move symbols (`U`, `U'`, `U2`, …). -/
inductive Move where
  | U | Up | U2 | D | Dp | D2 | L | Lp | L2
  | R | Rp | R2 | F | Fp | F2 | B | Bp | B2
deriving DecidableEq, Fintype, Repr

/-- `MoveEngine.apply_move` restricted to the 18 recognized symbols
(the engine validates the symbol and copies the state first; the embedding
is pure, so the copy is implicit). -/
def applyMove (m : Move) (s : CState) : CState :=
  match m with
  | .U => moveU s  | .Up => moveUp s  | .U2 => moveU2 s
  | .D => moveD s  | .Dp => moveDp s  | .D2 => moveD2 s
  | .L => moveL s  | .Lp => moveLp s  | .L2 => moveL2 s
  | .R => moveR s  | .Rp => moveRp s  | .R2 => moveR2 s
  | .F => moveF s  | .Fp => moveFp s  | .F2 => moveF2 s
  | .B => moveB s  | .Bp => moveBp s  | .B2 => moveB2 s

/-- `RubikCube.execute_sequence`: apply moves left to right. -/
def applySeq (s : CState) (ms : List Move) : CState :=
  ms.foldl (fun t m => applyMove m t) s

/-- `RubikCube._create_solved_state`: label of position `i` is `i / 9`. -/
def solvedState : CState := (List.range 54).map (fun i => i / 9)

/-- `RubikCube.is_solved`: exact equality with the solved reference state. -/
def isSolved (s : CState) : Bool := s == solvedState

/-- Apply a permutation table: position `i` of the result holds the label
at position `t[i]` of `s`. -/
def applyTbl (t : List Nat) (s : CState) : CState := t.map (nth s)

/-- `AStarSolver._are_opposite`: quarter-turn pairs on the same face,
checked in both orders (half turns are never opposite here). -/
def areOpposite (m1 m2 : Move) : Bool :=
  match m1, m2 with
  | .U, .Up | .Up, .U | .R, .Rp | .Rp, .R | .F, .Fp | .Fp, .F
  | .L, .Lp | .Lp, .L | .D, .Dp | .Dp, .D | .B, .Bp | .Bp, .B => true
  | _, _ => false

/-- The reduced move set used by `AStarSolver._fast_bfs`. -/
def bfsMoves : List Move := [.U, .Up, .R, .Rp, .F, .Fp]

/-- Inner move loop of `_fast_bfs`: skip an immediate reversal of the
path's last move, return `path ++ [move]` as soon as a child is solved,
otherwise collect the children to enqueue, in move order. -/
def expandAux (cur : CState) (path : List Move) :
    List Move → Option (List Move) × List (CState × List Move)
  | [] => (none, [])
  | m :: ms =>
    if (match path.getLast? with | some lm => areOpposite m lm | none => false) then
      expandAux cur path ms
    else
      let nxt := applyMove m cur
      if isSolved nxt then (some (path ++ [m]), [])
      else
        let r := expandAux cur path ms
        (r.1, (nxt, path ++ [m]) :: r.2)

/-- One level of `_fast_bfs`: pop `k` entries (`level_size`), dedup by the
24-label prefix key (`_quick_hash`), expand the rest. -/
def processLevel :
    Nat → List (CState × List Move) → List (List Nat) →
      Option (List Move) × List (CState × List Move) × List (List Nat)
  | 0, q, vis => (none, q, vis)
  | k+1, q, vis =>
    match q with
    | [] => (none, [], vis)
    | (cur, path) :: q2 =>
      if cur.take 24 ∈ vis then processLevel k q2 vis
      else
        match expandAux cur path bfsMoves with
        | (some sol, _) => (some sol, q2, vis)
        | (none, cs) => processLevel k (q2 ++ cs) (cur.take 24 :: vis)

/-- Outer depth loop of `_fast_bfs` (`for depth in range(6)`). -/
def bfsDepths :
    Nat → List (CState × List Move) → List (List Nat) → Option (List Move)
  | 0, _, _ => none
  | d+1, q, vis =>
    match processLevel q.length q vis with
    | (some sol, _, _) => some sol
    | (none, q2, vis2) => bfsDepths d q2 vis2

/-- `AStarSolver._fast_bfs`. -/
def fastBFS (cube : CState) : Option (List Move) :=
  bfsDepths 6 [(cube, [])] []

/-- Queue invariant for the BFS emptiness proof: every queued state has 54
labels and carries label `v` at position 33 (a position none of the six
BFS moves touches). -/
def QInv (v : Nat) (q : List (CState × List Move)) : Prop :=
  ∀ e ∈ q, e.1.length = 54 ∧ nth e.1 33 = v

/-- `AStarSolver._invert_sequence`'s per-move textual inverse:
`X'` ↦ `X`, `X2` ↦ `X2`, `X` ↦ `X'`. -/
def invertMove : Move → Move
  | .U => .Up | .Up => .U | .U2 => .U2
  | .D => .Dp | .Dp => .D | .D2 => .D2
  | .L => .Lp | .Lp => .L | .L2 => .L2
  | .R => .Rp | .Rp => .R | .R2 => .R2
  | .F => .Fp | .Fp => .F | .F2 => .F2
  | .B => .Bp | .Bp => .B | .B2 => .B2

/-- `AStarSolver._invert_sequence`: reverse the sequence and invert each
move textually. -/
def invertSequence (ms : List Move) : List Move := ms.reverse.map invertMove

/-- The enumeration order of `_reverse_solve`'s `test_moves` list. -/
def testMoves : List Move :=
  [.U, .Up, .U2, .R, .Rp, .R2, .F, .Fp, .F2,
   .L, .Lp, .L2, .D, .Dp, .D2, .B, .Bp, .B2]

/-- All move sequences of a given length in `itertools.product` order
(first coordinate varies slowest). -/
def seqsOfLen : Nat → List (List Move)
  | 0 => [[]]
  | n+1 => testMoves.flatMap (fun m => (seqsOfLen n).map (fun ms => m :: ms))

/-- `_reverse_solve`'s validity filter: no immediate reversal between any
two consecutive moves. -/
def noImmediateReversal : List Move → Bool
  | m1 :: m2 :: rest => !areOpposite m1 m2 && noImmediateReversal (m2 :: rest)
  | _ => true

/-- `AStarSolver._reverse_solve`: for lengths 1..8, enumerate candidate
scramble sequences in product order, skip those with an immediate
reversal, and on the first sequence that maps the solved state to the
target return its textual inverse. -/
def reverseSolve (cube : CState) : Option (List Move) :=
  ((List.range' 1 8).findSome? fun len =>
    (seqsOfLen len).findSome? fun ms =>
      if noImmediateReversal ms && (applySeq solvedState ms == cube)
      then some ms else none).map invertSequence

/-- `AStarSolver._count_correct_pieces`: facelets agreeing with the solved
reference state. -/
def countCorrect (s : CState) : Nat :=
  (List.range 54).countP (fun i => nth s i == nth solvedState i)

/-- The fixed pattern catalog of `AStarSolver._brute_force_solve`. -/
def patterns : List (List Move) :=
  [[.U], [.Up], [.R], [.Rp], [.F], [.Fp], [.L], [.Lp], [.D], [.Dp], [.B], [.Bp],
   [.R, .U, .Rp, .Up],
   [.U, .R, .Up, .Rp],
   [.F, .R, .U, .Rp, .Up, .Fp],
   [.R, .U, .Rp, .F, .R, .Fp],
   [.U, .R, .Up, .Rp, .Up, .F, .R, .Fp],
   [.R, .U2, .Rp, .Up, .R, .Up, .Rp],
   [.R, .U, .Rp, .U, .R, .U2, .Rp],
   [.F, .U, .R, .Up, .Rp, .Fp],
   [.R, .U, .Rp], [.F, .U, .Fp], [.R, .F, .Rp]]

/-- Pattern scan of one `_brute_force_solve` iteration: return the first
pattern that solves the working state outright (left), else the best
strictly-improving pattern, ties broken by catalog order (right). -/
def scanPatterns (wc : CState) :
    List (List Move) → Nat → Option (List Move) →
      Sum (List Move) (Option (List Move))
  | [], _, best => .inr best
  | p :: ps, bestScore, best =>
    let t := applySeq wc p
    if isSolved t then .inl p
    else if countCorrect t > bestScore
    then scanPatterns wc ps (countCorrect t) (some p)
    else scanPatterns wc ps bestScore best

/-- The bounded iteration of `_brute_force_solve` (`for iteration in
range(50)` with the `len(solution) > 100` break and the post-loop
`solution if solved else None` return). -/
def bruteIter : Nat → Nat → CState → List Move → Option (List Move)
  | 0, _, wc, sol => if isSolved wc then some sol else none
  | fuel+1, iter, wc, sol =>
    if isSolved wc then some sol
    else
      match scanPatterns wc patterns (countCorrect wc) none with
      | .inl p => some (sol ++ p)
      | .inr best =>
        let chosen :=
          match best with
          | some p => p
          | none => patterns.getD (iter % patterns.length) []
        let wc2 := applySeq wc chosen
        let sol2 := sol ++ chosen
        if sol2.length > 100 then (if isSolved wc2 then some sol2 else none)
        else bruteIter fuel (iter+1) wc2 sol2

/-- `AStarSolver._brute_force_solve`. -/
def bruteForce (cube : CState) : Option (List Move) := bruteIter 50 0 cube []

/-- `SearchStatistics` (`solve_time` is a wall-clock float in the source;
the solver under scrutiny never writes it, so its value is carried
abstractly as a natural number here). -/
structure Stats where
  nodes_explored : Nat
  solution_found : Bool
  solution_length : Nat
  solve_time : Nat
  max_depth_reached : Nat
deriving DecidableEq, Repr

/-- The field values established by `SearchStatistics.reset` (also the
values a freshly constructed solver starts with). -/
def resetStats : Stats := ⟨0, false, 0, 0, 0⟩

/-- Python truthiness of an optional move list: `None` and the empty list
are falsy (`if bfs_solution:` in `solve`). -/
def truthy (o : Option (List Move)) : Bool :=
  match o with
  | none => false
  | some l => !l.isEmpty

/-- The recognized heuristic names checked at the top of `solve`. -/
def validHeuristics : List String := ["manhattan", "corner_edge", "combined"]

/-- `AStarSolver.solve`: validate the heuristic name, short-circuit on an
already-solved input, then try `_fast_bfs`, `_reverse_solve` and
`_brute_force_solve` in order.  The returned triple carries the result
(`Except.error` models the raised `ValueError`), the caller's cube state
as the call leaves it, and the solver's statistics record as the call
leaves it; the source only ever reads or copies either, so both come back
unchanged along every path. -/
def solve (stats : Stats) (cube : CState) (heuristic : String) :
    Except String (Option (List Move)) × CState × Stats :=
  if heuristic ∈ validHeuristics then
    if isSolved cube then (.ok (some []), cube, stats)
    else if truthy (fastBFS cube) then (.ok (fastBFS cube), cube, stats)
    else if truthy (reverseSolve cube) then (.ok (reverseSolve cube), cube, stats)
    else (.ok (bruteForce cube), cube, stats)
  else (.error "Unknown heuristic type", cube, stats)

/-- `MoveEngine.get_all_moves` order (the move-table insertion order). -/
def allMoves : List Move :=
  [.U, .Up, .U2, .D, .Dp, .D2, .L, .Lp, .L2,
   .R, .Rp, .R2, .F, .Fp, .F2, .B, .Bp, .B2]

/-- `RubikCube._is_reverse_move`'s `reverse_map` dictionary. -/
def reverseMap : Move → Move
  | .U => .Up | .Up => .U | .U2 => .U2
  | .D => .Dp | .Dp => .D | .D2 => .D2
  | .L => .Lp | .Lp => .L | .L2 => .L2
  | .R => .Rp | .Rp => .R | .R2 => .R2
  | .F => .Fp | .Fp => .F | .F2 => .F2
  | .B => .Bp | .Bp => .B | .B2 => .B2

/-- `RubikCube._is_reverse_move` with the scramble loop's `last_move`
(`None` before the first move). -/
def isReverseMove (m1 : Move) (last : Option Move) : Bool :=
  match last with
  | none => false
  | some lm => m1 == reverseMap lm

/-- The scramble loop of `RubikCube.scramble`.  The numpy global RNG
(`np.random.seed` / `np.random.choice`) is abstracted as a caller-supplied
deterministic generator state `σ` with step function `next`; the choice of
a list element is its index `next-value mod length`, which covers any
deterministic uniform-choice generator. -/
def scrambleLoop {σ : Type} (next : σ → Nat × σ) :
    Nat → σ → CState → List Move → Option Move → CState × List Move
  | 0, _, s, acc, _ => (s, acc)
  | n+1, st, s, acc, last =>
    let valid := allMoves.filter (fun m => !isReverseMove m last)
    let p := next st
    let m := valid.getD (p.1 % valid.length) .U
    scrambleLoop next n p.2 (applyMove m s) (acc ++ [m]) (some m)

/-- `RubikCube.scramble n seed` from a given cube state: seed the
generator, then run the loop.  Returns the final state and the recorded
scramble move list. -/
def scramble {σ : Type} (next : σ → Nat × σ) (seedFn : Int → σ)
    (seed : Int) (n : Nat) (s : CState) : CState × List Move :=
  scrambleLoop next n (seedFn seed) s [] none

/-- The no-immediate-reversal chain property of a recorded move list,
relative to the move (if any) that came just before the list. -/
def noRevChain : Option Move → List Move → Bool
  | _, [] => true
  | last, m :: ms => !isReverseMove m last && noRevChain (some m) ms

/-- The six face letters (the first character of a move symbol, which is
what `MoveOptimizer.optimize_sequence` groups by). -/
inductive Face where
  | U | D | L | R | F | B
deriving DecidableEq, Repr

/-- The face letter of a move symbol. -/
def faceOf : Move → Face
  | .U | .Up | .U2 => .U
  | .D | .Dp | .D2 => .D
  | .L | .Lp | .L2 => .L
  | .R | .Rp | .R2 => .R
  | .F | .Fp | .F2 => .F
  | .B | .Bp | .B2 => .B

/-- `MoveOptimizer.move_values`: +1 clockwise, −1 counterclockwise,
+2 half turn. -/
def moveValue : Move → Int
  | .U | .D | .L | .R | .F | .B => 1
  | .Up | .Dp | .Lp | .Rp | .Fp | .Bp => -1
  | .U2 | .D2 | .L2 | .R2 | .F2 | .B2 => 2

/-- Clockwise quarter turn of a face (the bare face letter). -/
def quarterOf : Face → Move
  | .U => .U | .D => .D | .L => .L | .R => .R | .F => .F | .B => .B

/-- Half turn of a face (face letter + `2`). -/
def halfOf : Face → Move
  | .U => .U2 | .D => .D2 | .L => .L2 | .R => .R2 | .F => .F2 | .B => .B2

/-- Counterclockwise quarter turn of a face (face letter + `'`). -/
def primeOf : Face → Move
  | .U => .Up | .D => .Dp | .L => .Lp | .R => .Rp | .F => .Fp | .B => .Bp

/-- Group loop of `MoveOptimizer.optimize_sequence`: take the maximal run
of consecutive same-face moves, sum its rotation values modulo 4 (Python
`%` on a positive modulus is non-negative, as is `Int.emod`), emit no
move / clockwise / half / counterclockwise for a net of 0 / 1 / 2 / 3,
and continue after the run.  The fuel argument (each step consumes at
least one move, so the list length is enough) keeps the recursion
structural. -/
def optimizeGroups : Nat → List Move → List Move
  | 0, _ => []
  | _, [] => []
  | fuel+1, m :: rest =>
    let grp := m :: rest.takeWhile (fun x => faceOf x == faceOf m)
    let rest2 := rest.dropWhile (fun x => faceOf x == faceOf m)
    let net := ((grp.map moveValue).sum) % 4
    (if net == 1 then [quarterOf (faceOf m)]
     else if net == 2 then [halfOf (faceOf m)]
     else if net == 3 then [primeOf (faceOf m)]
     else []) ++ optimizeGroups fuel rest2

/-- `MoveOptimizer.optimize_sequence`. -/
def optimizeSeq (l : List Move) : List Move := optimizeGroups l.length l

/-- `Heuristics.manhattan_distance`: count non-center facelets (grid
position (1,1) of a face is array offset 4, i.e. `p % 9 = 4`) that differ
from the solved reference, clamp at 20, divide by 4. -/
def manhattanDistance (s : CState) : Nat :=
  min ((List.range 54).countP
    (fun p => p % 9 != 4 && nth s p != nth solvedState p)) 20 / 4

/-- `Heuristics.corners`: the 8 corner facelet-position triples. -/
def cornerPos : List (List Nat) :=
  [[0, 9, 36], [2, 11, 38], [6, 15, 42], [8, 17, 44],
   [18, 27, 45], [20, 29, 47], [24, 33, 51], [26, 35, 53]]

/-- `Heuristics.edges`: the 12 edge facelet-position pairs. -/
def edgePos : List (List Nat) :=
  [[1, 37], [3, 39], [5, 41], [7, 43],
   [10, 46], [12, 48], [14, 50], [16, 52],
   [19, 28], [21, 30], [23, 32], [25, 34]]

/-- `Heuristics.corner_edge_heuristic`: 0 for a solved state; otherwise 2
per corner with the wrong color multiset plus 1 per correctly-placed but
misoriented corner, 1 per edge with the wrong color multiset plus 1 per
misoriented edge, scaled as `max(1, h // 4)` when positive. -/
def cornerEdgeHeuristic (s : CState) : Nat :=
  if isSolved s then 0
  else
    let hc := (cornerPos.map (fun c =>
      let cur := c.map (nth s)
      let sol := c.map (nth solvedState)
      if List.insertionSort (· ≤ ·) cur ≠ List.insertionSort (· ≤ ·) sol then 2
      else if cur ≠ sol then 1 else 0)).sum
    let he := (edgePos.map (fun e =>
      let cur := e.map (nth s)
      let sol := e.map (nth solvedState)
      if List.insertionSort (· ≤ ·) cur ≠ List.insertionSort (· ≤ ·) sol then 1
      else if cur ≠ sol then 1 else 0)).sum
    let h := hc + he
    if h > 0 then max 1 (h / 4) else 0

/-- `Heuristics.layer_completion_heuristic`'s bottom-layer positions. -/
def bottomPositions : List Nat :=
  List.range' 45 9 ++ [6, 7, 8, 15, 16, 17, 24, 25, 26, 33, 34, 35]

/-- `Heuristics.layer_completion_heuristic`'s middle-layer positions. -/
def middlePositions : List Nat :=
  [3, 5, 10, 12, 14, 16, 19, 21, 23, 25, 28, 30, 32, 34]

/-- `Heuristics.layer_completion_heuristic`: one point per bottom-layer
mismatch plus a flat 20 when any exists; otherwise two points per
middle-layer mismatch. -/
def layerCompletionHeuristic (s : CState) : Nat :=
  let bm := bottomPositions.countP (fun p => nth s p != nth solvedState p)
  if bm ≠ 0 then bm + 20
  else 2 * middlePositions.countP (fun p => nth s p != nth solvedState p)

/-- `Heuristics.combined_heuristic`: `int(0.3*h1 + 0.5*h2 + 0.2*h3)`.
The source computes this in IEEE floating point and truncates; the
embedding uses the exact rational value `(3·h1 + 5·h2 + 2·h3)/10` floored.
Every concrete value this development evaluates it at is well clear of an
integer boundary, where the two semantics agree. -/
def combinedHeuristic (s : CState) : Nat :=
  (3 * manhattanDistance s + 5 * cornerEdgeHeuristic s
    + 2 * layerCompletionHeuristic s) / 10

/-- The state obtained by scrambling a solved cube with `[B, F]`
(`execute_sequence(['B', 'F'])`).  Its label at position 33 differs from
the solved state's, and position 33 is touched by none of the six moves
the bounded BFS strategy uses, so that strategy can never solve it. -/
def scrambledBF : CState := applyMove .F (applyMove .B solvedState)

/-- A valid 9-of-each-label facelet state that is one transposition away
from solved: the corner facelets at positions 0 (Front) and 9 (Right) are
exchanged. -/
def swappedState : CState := (solvedState.set 0 1).set 9 0

theorem nth_map_of_lt (f : Nat → Nat) (l : CState) (i : Nat) (h : i < l.length) :
    nth (l.map f) i = f (nth l i) := by
  simp [nth, List.getD_eq_getElem?_getD, List.getElem?_eq_getElem, h, List.getElem?_map]

theorem set_map_out (f : Nat → Nat) (l : CState) (i v : Nat) :
    (l.map f).set i (f v) = (l.set i v).map f := by
  simp

theorem writes_length (ps : List (Nat × Nat)) (s : CState) :
    (writes s ps).length = s.length := by
  induction ps generalizing s with
  | nil => rfl
  | cons p ps ih => simp [writes, ih]

theorem moveU_len (s : CState) : (moveU s).length = s.length := by
  simp [moveU, rotFaceCW, writes_length]

theorem moveUp_len (s : CState) : (moveUp s).length = s.length := by
  simp [moveUp, rotFaceCCW, writes_length]

theorem moveD_len (s : CState) : (moveD s).length = s.length := by
  simp [moveD, rotFaceCW, writes_length]

theorem moveDp_len (s : CState) : (moveDp s).length = s.length := by
  simp [moveDp, rotFaceCCW, writes_length]

theorem moveL_len (s : CState) : (moveL s).length = s.length := by
  simp [moveL, rotFaceCW, writes_length]

theorem moveLp_len (s : CState) : (moveLp s).length = s.length := by
  simp [moveLp, rotFaceCCW, writes_length]

theorem moveR_len (s : CState) : (moveR s).length = s.length := by
  simp [moveR, rotFaceCW, writes_length]

theorem moveRp_len (s : CState) : (moveRp s).length = s.length := by
  simp [moveRp, rotFaceCCW, writes_length]

theorem moveF_len (s : CState) : (moveF s).length = s.length := by
  simp [moveF, rotFaceCW, writes_length]

theorem moveFp_len (s : CState) : (moveFp s).length = s.length := by
  simp [moveFp, rotFaceCCW, writes_length]

theorem moveB_len (s : CState) : (moveB s).length = s.length := by
  simp [moveB, rotFaceCW, writes_length]

theorem moveBp_len (s : CState) : (moveBp s).length = s.length := by
  simp [moveBp, rotFaceCCW, writes_length]

theorem applyMove_length (m : Move) (s : CState) :
    (applyMove m s).length = s.length := by
  cases m <;>
    simp [applyMove, moveU2, moveD2, moveL2, moveR2, moveF2, moveB2,
      moveU_len, moveUp_len, moveD_len, moveDp_len, moveL_len, moveLp_len,
      moveR_len, moveRp_len, moveF_len, moveFp_len, moveB_len, moveBp_len]

theorem moveU_map (l : CState) (f : Nat → Nat) (h : l.length = 54) :
    moveU (l.map f) = (moveU l).map f := by
  simp only [moveU, rotFaceCW, writes, nth_map_of_lt, set_map_out,
    List.length_set, List.length_map, h, Nat.reduceMul, Nat.reduceAdd, Nat.reduceLT]

theorem moveUp_map (l : CState) (f : Nat → Nat) (h : l.length = 54) :
    moveUp (l.map f) = (moveUp l).map f := by
  simp only [moveUp, rotFaceCCW, writes, nth_map_of_lt, set_map_out,
    List.length_set, List.length_map, h, Nat.reduceMul, Nat.reduceAdd, Nat.reduceLT]

theorem moveD_map (l : CState) (f : Nat → Nat) (h : l.length = 54) :
    moveD (l.map f) = (moveD l).map f := by
  simp only [moveD, rotFaceCW, writes, nth_map_of_lt, set_map_out,
    List.length_set, List.length_map, h, Nat.reduceMul, Nat.reduceAdd, Nat.reduceLT]

theorem moveDp_map (l : CState) (f : Nat → Nat) (h : l.length = 54) :
    moveDp (l.map f) = (moveDp l).map f := by
  simp only [moveDp, rotFaceCCW, writes, nth_map_of_lt, set_map_out,
    List.length_set, List.length_map, h, Nat.reduceMul, Nat.reduceAdd, Nat.reduceLT]

theorem moveL_map (l : CState) (f : Nat → Nat) (h : l.length = 54) :
    moveL (l.map f) = (moveL l).map f := by
  simp only [moveL, rotFaceCW, writes, nth_map_of_lt, set_map_out,
    List.length_set, List.length_map, h, Nat.reduceMul, Nat.reduceAdd, Nat.reduceLT]

theorem moveLp_map (l : CState) (f : Nat → Nat) (h : l.length = 54) :
    moveLp (l.map f) = (moveLp l).map f := by
  simp only [moveLp, rotFaceCCW, writes, nth_map_of_lt, set_map_out,
    List.length_set, List.length_map, h, Nat.reduceMul, Nat.reduceAdd, Nat.reduceLT]

theorem moveR_map (l : CState) (f : Nat → Nat) (h : l.length = 54) :
    moveR (l.map f) = (moveR l).map f := by
  simp only [moveR, rotFaceCW, writes, nth_map_of_lt, set_map_out,
    List.length_set, List.length_map, h, Nat.reduceMul, Nat.reduceAdd, Nat.reduceLT]

theorem moveRp_map (l : CState) (f : Nat → Nat) (h : l.length = 54) :
    moveRp (l.map f) = (moveRp l).map f := by
  simp only [moveRp, rotFaceCCW, writes, nth_map_of_lt, set_map_out,
    List.length_set, List.length_map, h, Nat.reduceMul, Nat.reduceAdd, Nat.reduceLT]

theorem moveF_map (l : CState) (f : Nat → Nat) (h : l.length = 54) :
    moveF (l.map f) = (moveF l).map f := by
  simp only [moveF, rotFaceCW, writes, nth_map_of_lt, set_map_out,
    List.length_set, List.length_map, h, Nat.reduceMul, Nat.reduceAdd, Nat.reduceLT]

theorem moveFp_map (l : CState) (f : Nat → Nat) (h : l.length = 54) :
    moveFp (l.map f) = (moveFp l).map f := by
  simp only [moveFp, rotFaceCCW, writes, nth_map_of_lt, set_map_out,
    List.length_set, List.length_map, h, Nat.reduceMul, Nat.reduceAdd, Nat.reduceLT]

theorem moveB_map (l : CState) (f : Nat → Nat) (h : l.length = 54) :
    moveB (l.map f) = (moveB l).map f := by
  simp only [moveB, rotFaceCW, writes, nth_map_of_lt, set_map_out,
    List.length_set, List.length_map, h, Nat.reduceMul, Nat.reduceAdd, Nat.reduceLT]

theorem moveBp_map (l : CState) (f : Nat → Nat) (h : l.length = 54) :
    moveBp (l.map f) = (moveBp l).map f := by
  simp only [moveBp, rotFaceCCW, writes, nth_map_of_lt, set_map_out,
    List.length_set, List.length_map, h, Nat.reduceMul, Nat.reduceAdd, Nat.reduceLT]

theorem applyMove_map (m : Move) (l : CState) (f : Nat → Nat) (h : l.length = 54) :
    applyMove m (l.map f) = (applyMove m l).map f := by
  have h54 : ∀ g : CState → CState, (∀ s : CState, (g s).length = s.length) →
      (g l).length = 54 := fun g hg => by rw [hg]; exact h
  cases m <;> simp only [applyMove, moveU2, moveD2, moveL2, moveR2, moveF2, moveB2]
  case U => exact moveU_map l f h
  case Up => exact moveUp_map l f h
  case U2 => rw [moveU_map l f h, moveU_map _ f (h54 _ moveU_len)]
  case D => exact moveD_map l f h
  case Dp => exact moveDp_map l f h
  case D2 => rw [moveD_map l f h, moveD_map _ f (h54 _ moveD_len)]
  case L => exact moveL_map l f h
  case Lp => exact moveLp_map l f h
  case L2 => rw [moveL_map l f h, moveL_map _ f (h54 _ moveL_len)]
  case R => exact moveR_map l f h
  case Rp => exact moveRp_map l f h
  case R2 => rw [moveR_map l f h, moveR_map _ f (h54 _ moveR_len)]
  case F => exact moveF_map l f h
  case Fp => exact moveFp_map l f h
  case F2 => rw [moveF_map l f h, moveF_map _ f (h54 _ moveF_len)]
  case B => exact moveB_map l f h
  case Bp => exact moveBp_map l f h
  case B2 => rw [moveB_map l f h, moveB_map _ f (h54 _ moveB_len)]

theorem map_nth_range (s : CState) (n : Nat) (h : s.length = n) :
    (List.range n).map (nth s) = s := by
  apply List.ext_getElem
  · simp [h]
  · intro i h1 h2
    simp [nth, List.getD_eq_getElem?_getD, List.getElem?_eq_getElem, h2]

theorem move_eq_tbl (M : CState → CState)
    (hnat : ∀ l f, l.length = 54 → M (l.map f) = (M l).map f)
    (s : CState) (hs : s.length = 54) :
    M s = applyTbl (M (List.range 54)) s := by
  have h0 : (List.range 54 : List Nat).length = 54 := by simp
  calc M s = M ((List.range 54).map (nth s)) := by rw [map_nth_range s 54 hs]
    _ = (M (List.range 54)).map (nth s) := hnat _ _ h0
    _ = applyTbl (M (List.range 54)) s := rfl

theorem applyMove_eq_tbl (m : Move) (s : CState) (hs : s.length = 54) :
    applyMove m s = applyTbl (applyMove m (List.range 54)) s :=
  move_eq_tbl (applyMove m) (fun l f h => applyMove_map m l f h) s hs

theorem applyMove_tbl_perm (m : Move) :
    (applyMove m (List.range 54)).Perm (List.range 54) := by
  cases m <;> decide

theorem applyMove_perm (m : Move) (s : CState) (hs : s.length = 54) :
    (applyMove m s).Perm s := by
  rw [applyMove_eq_tbl m s hs]
  have h1 := (applyMove_tbl_perm m).map (nth s)
  rw [map_nth_range s 54 hs] at h1
  exact h1

theorem applyMove_count (m : Move) (s : CState) (hs : s.length = 54) (c : Nat) :
    (applyMove m s).count c = s.count c :=
  (applyMove_perm m s hs).count_eq c

theorem applySeq_cons (s : CState) (m : Move) (ms : List Move) :
    applySeq s (m :: ms) = applySeq (applyMove m s) ms := rfl

theorem applySeq_length (ms : List Move) (s : CState) :
    (applySeq s ms).length = s.length := by
  induction ms generalizing s with
  | nil => rfl
  | cons m ms ih => rw [applySeq_cons, ih, applyMove_length]

theorem applySeq_count (ms : List Move) (s : CState) (hs : s.length = 54) (c : Nat) :
    (applySeq s ms).count c = s.count c := by
  induction ms generalizing s with
  | nil => rfl
  | cons m ms ih =>
    rw [applySeq_cons, ih _ (by rw [applyMove_length]; exact hs),
      applyMove_count m s hs]

theorem nth_applyTbl (t : List Nat) (s : CState) (i : Nat) (h : i < t.length) :
    nth (applyTbl t s) i = nth s (nth t i) := by
  have h1 := nth_map_of_lt (nth s) t i h
  exact h1

theorem bfs_move_fix33 (m : Move) (hm : m ∈ bfsMoves) (s : CState)
    (hs : s.length = 54) : nth (applyMove m s) 33 = nth s 33 := by
  have ht : nth (applyMove m (List.range 54)) 33 = 33 := by
    fin_cases hm <;> decide
  have hlen : 33 < (applyMove m (List.range 54)).length := by
    rw [applyMove_length]; simp
  rw [applyMove_eq_tbl m s hs, nth_applyTbl _ _ _ hlen, ht]

theorem nth33_of_solved (s : CState) (h : isSolved s = true) : nth s 33 = 3 := by
  have hs : s = solvedState := by simpa [isSolved] using h
  subst hs; decide

theorem expandAux_inv (v : Nat) (hv : v ≠ 3) (cur : CState) (path : List Move)
    (h54 : cur.length = 54) (h33 : nth cur 33 = v) :
    ∀ ms, (∀ m ∈ ms, m ∈ bfsMoves) →
      (expandAux cur path ms).1 = none ∧
        ∀ e ∈ (expandAux cur path ms).2, e.1.length = 54 ∧ nth e.1 33 = v := by
  intro ms
  induction ms with
  | nil => intro _; exact ⟨rfl, by intro e he; simp [expandAux] at he⟩
  | cons m ms ih =>
    intro hsub
    have hm : m ∈ bfsMoves := hsub m (by simp)
    have hms : ∀ m2 ∈ ms, m2 ∈ bfsMoves := fun m2 h2 => hsub m2 (by simp [h2])
    have hnxt33 : nth (applyMove m cur) 33 = v := by
      rw [bfs_move_fix33 m hm cur h54]; exact h33
    have hnxtlen : (applyMove m cur).length = 54 := by
      rw [applyMove_length]; exact h54
    have hnotsolved : isSolved (applyMove m cur) = false := by
      cases hsol : isSolved (applyMove m cur) with
      | false => rfl
      | true => exact absurd (hnxt33.symm.trans (nth33_of_solved _ hsol)) hv
    unfold expandAux
    by_cases hskip :
        (match path.getLast? with
          | some lm => areOpposite m lm | none => false) = true
    · simp only [hskip, if_true]
      exact ih hms
    · simp only [eq_false_of_ne_true hskip, if_false, hnotsolved]
      refine ⟨(ih hms).1, ?_⟩
      intro e he
      rcases List.mem_cons.mp he with h1 | h2
      · subst h1; exact ⟨hnxtlen, hnxt33⟩
      · exact (ih hms).2 e h2

theorem processLevel_inv (v : Nat) (hv : v ≠ 3) :
    ∀ (k : Nat) (q : List (CState × List Move)) (vis : List (List Nat)),
      QInv v q →
        (processLevel k q vis).1 = none ∧ QInv v (processLevel k q vis).2.1 := by
  intro k
  induction k with
  | zero => intro q vis hq; exact ⟨rfl, hq⟩
  | succ k ih =>
    intro q vis hq
    match q with
    | [] => exact ⟨rfl, by intro e he; simp [processLevel] at he⟩
    | (cur, path) :: q2 =>
      have hcur := hq (cur, path) (by simp)
      have hq2 : QInv v q2 := fun e he => hq e (by simp [he])
      by_cases hvis : cur.take 24 ∈ vis
      · simpa [processLevel, hvis] using ih q2 vis hq2
      · have hexp := expandAux_inv v hv cur path hcur.1 hcur.2 bfsMoves
          (fun m hm => hm)
        have hqcs : QInv v (q2 ++ (expandAux cur path bfsMoves).2) := by
          intro e he
          rcases List.mem_append.mp he with h1 | h2
          · exact hq2 e h1
          · exact hexp.2 e h2
        have := ih (q2 ++ (expandAux cur path bfsMoves).2)
          (cur.take 24 :: vis) hqcs
        simp only [processLevel, hvis, if_false]
        rcases hpair : expandAux cur path bfsMoves with ⟨r1, r2⟩
        rw [hpair] at hexp this
        cases r1 with
        | none => simpa using this
        | some sol => exact absurd hexp.1 (by simp)

theorem bfsDepths_none (v : Nat) (hv : v ≠ 3) :
    ∀ (d : Nat) (q : List (CState × List Move)) (vis : List (List Nat)),
      QInv v q → bfsDepths d q vis = none := by
  intro d
  induction d with
  | zero => intro q vis _; rfl
  | succ d ih =>
    intro q vis hq
    have hp := processLevel_inv v hv q.length q vis hq
    unfold bfsDepths
    rcases hproc : processLevel q.length q vis with ⟨r1, q2, vis2⟩
    rw [hproc] at hp
    cases r1 with
    | none => exact ih q2 vis2 hp.2
    | some sol => exact absurd hp.1 (by simp)

theorem fastBFS_none (s : CState) (h54 : s.length = 54)
    (h33 : nth s 33 ≠ 3) : fastBFS s = none := by
  apply bfsDepths_none (nth s 33) h33
  intro e he
  simp only [List.mem_singleton] at he
  subst he
  exact ⟨h54, rfl⟩

theorem getD_mem_of_lt {α : Type} (l : List α) (i : Nat) (d : α)
    (h : i < l.length) : l.getD i d ∈ l := by
  rw [List.getD_eq_getElem?_getD, List.getElem?_eq_getElem h]
  exact List.getElem_mem h

theorem validMoves_pos (last : Option Move) :
    0 < (allMoves.filter (fun m => !isReverseMove m last)).length := by
  cases last with
  | none => decide
  | some lm => cases lm <;> decide

theorem scrambleLoop_acc {σ : Type} (next : σ → Nat × σ) :
    ∀ (n : Nat) (st : σ) (s : CState) (acc : List Move) (last : Option Move),
      (scrambleLoop next n st s acc last).2
        = acc ++ (scrambleLoop next n st s [] last).2 := by
  intro n
  induction n with
  | zero => intro st s acc last; simp [scrambleLoop]
  | succ n ih =>
    intro st s acc last
    simp only [scrambleLoop, List.nil_append]
    rw [ih, ih _ _ [_] _, List.append_assoc]

theorem scrambleLoop_len {σ : Type} (next : σ → Nat × σ) :
    ∀ (n : Nat) (st : σ) (s : CState) (acc : List Move) (last : Option Move),
      (scrambleLoop next n st s acc last).2.length = acc.length + n := by
  intro n
  induction n with
  | zero => intro st s acc last; simp [scrambleLoop]
  | succ n ih =>
    intro st s acc last
    simp only [scrambleLoop]
    rw [ih]
    simp only [List.length_append, List.length_singleton]
    omega

theorem scrambleLoop_chain {σ : Type} (next : σ → Nat × σ) :
    ∀ (n : Nat) (st : σ) (s : CState) (last : Option Move),
      noRevChain last (scrambleLoop next n st s [] last).2 = true := by
  intro n
  induction n with
  | zero => intro st s last; rfl
  | succ n ih =>
    intro st s last
    simp only [scrambleLoop, List.nil_append]
    rw [scrambleLoop_acc]
    set valid := allMoves.filter (fun m => !isReverseMove m last) with hvalid
    set m := valid.getD ((next st).1 % valid.length) Move.U with hm
    have hmem : m ∈ valid :=
      getD_mem_of_lt valid _ Move.U (Nat.mod_lt _ (validMoves_pos last))
    have hnorev : (!isReverseMove m last) = true := by
      rw [hvalid] at hmem
      exact (List.mem_filter.mp hmem).2
    show noRevChain last (m :: _) = true
    simp only [noRevChain, Bool.and_eq_true]
    exact ⟨hnorev, ih _ _ _⟩

theorem solve_reverse_branch (stats : Stats) (cube : CState)
    (heuristic : String) (hmem : heuristic ∈ validHeuristics)
    (hns : isSolved cube = false) (hbfs : fastBFS cube = none)
    (ms : List Move) (hrev : reverseSolve cube = some ms)
    (hne : ms.isEmpty = false) :
    solve stats cube heuristic = (.ok (some ms), cube, stats) := by
  unfold solve
  rw [if_pos hmem, hns, hbfs, hrev]
  simp [truthy, hne]

/-- Claim C1 (code bug): the spec guarantees that whatever sequence
`solve` returns, applying it to the original input state yields a solved
state.  On the concrete scramble `[B, F]` the bounded BFS strategy finds
nothing, reverse-scramble enumeration matches the pair `(B, F)` and
returns its textual inverse `[F', B']`, and — because `_move_F_prime` is
not the inverse permutation of `_move_F` — applying that returned
sequence to the input does **not** solve it. -/
theorem solve_returns_nonsolving_sequence :
    solve resetStats scrambledBF "corner_edge"
      = (.ok (some [.Fp, .Bp]), scrambledBF, resetStats) ∧
    applySeq scrambledBF [.Fp, .Bp] ≠ solvedState := by
  refine ⟨?_, by decide⟩
  exact solve_reverse_branch resetStats scrambledBF "corner_edge" (by decide)
    (by decide) (fastBFS_none scrambledBF (by decide) (by decide))
    [.Fp, .Bp] (by decide) (by decide)

/-- Claim C2 (code bug): the spec states that every clockwise quarter turn
and the counterclockwise quarter turn of the same face are mutual
inverses, and every half turn is its own inverse.  The `F` face violates
both: starting from the reachable state `R·solved`, `F` followed by `F'`
(and likewise `F2` followed by `F2`) does not restore the state, because
`_move_F`'s edge-strip cycle is an 8-cycle rather than three 4-cycles. -/
theorem F_then_Fprime_not_identity :
    applyMove .Fp (applyMove .F (applyMove .R solvedState))
      ≠ applyMove .R solvedState ∧
    applyMove .F2 (applyMove .F2 (applyMove .R solvedState))
      ≠ applyMove .R solvedState := by decide

/-- Claim C3 (code bug): the spec states that `optimize_sequence` never
changes the net permutation of a sequence.  `optimize_sequence` collapses
`[F, F, F]` to `[F']` (net rotation 3 mod 4), but with the engine's broken
`F`/`F'` moves the two sequences act differently on the reachable state
`R·solved`. -/
theorem optimize_changes_net_effect :
    optimizeSeq [.F, .F, .F] = [.Fp] ∧
    applySeq (applyMove .R solvedState) [.F, .F, .F]
      ≠ applySeq (applyMove .R solvedState) [.Fp] := by decide

/-- Claim C4 (confirmed): applying any of the 18 moves to a state with
exactly 9 occurrences of each of the 6 labels yields a state with the
same property, and consequently every state reachable from the solved
state by a move sequence keeps the 9-of-each label multiset. -/
theorem label_multiset_invariant :
    (∀ (m : Move) (s : CState), s.length = 54 → (∀ c, c < 6 → s.count c = 9) →
      ∀ c, c < 6 → (applyMove m s).count c = 9) ∧
    ∀ (ms : List Move) (c : Nat), c < 6 → (applySeq solvedState ms).count c = 9 := by
  have hsolved : ∀ c, c < 6 → solvedState.count c = 9 := by decide
  constructor
  · intro m s h54 h9 c hc
    rw [applyMove_count m s h54]
    exact h9 c hc
  · intro ms c hc
    rw [applySeq_count ms solvedState (by decide)]
    exact hsolved c hc

/-- Witness for C4: the hypotheses hold for the solved state, and the
theorem applied to it evaluates the invariant after an `F` move. -/
theorem label_multiset_invariant_witness :
    (solvedState.length = 54 ∧ (∀ c, c < 6 → solvedState.count c = 9)) ∧
    (applyMove .F solvedState).count 2 = 9 :=
  ⟨⟨by decide, by decide⟩,
    label_multiset_invariant.1 .F solvedState (by decide) (by decide) 2 (by decide)⟩

/-- Claim C5 (confirmed): with the numpy RNG abstracted as an arbitrary
deterministic generator, scrambling two fresh solved cubes with the same
length and seed yields identical states and identical recorded move lists
(the embedding is a pure function of `(n, seed)`), the recorded list has
exactly `n` moves, and no recorded move is the immediate face-reversal
(`reverse_map`) of the move just before it. -/
theorem scramble_deterministic_length_noreversal (σ : Type)
    (next : σ → Nat × σ) (seedFn : Int → σ) (seed : Int) (n : Nat) :
    scramble next seedFn seed n solvedState
      = scramble next seedFn seed n solvedState ∧
    (scramble next seedFn seed n solvedState).2.length = n ∧
    noRevChain none (scramble next seedFn seed n solvedState).2 = true := by
  refine ⟨rfl, ?_, ?_⟩
  · unfold scramble
    rw [scrambleLoop_len]
    exact Nat.zero_add n
  · exact scrambleLoop_chain next n (seedFn seed) solvedState none

/-- Claim C6 (confirmed): for any pre-call statistics, any cube state and
any heuristic name outside the recognized set, `solve` fails with the
unknown-heuristic error before any search: the result is the error alone,
the cube comes back unchanged, and the statistics come back exactly as
they were before the call (so a freshly reset record stays reset). -/
theorem unknown_heuristic_rejected_before_search (stats : Stats)
    (cube : CState) (heuristic : String) (hh : heuristic ∉ validHeuristics) :
    solve stats cube heuristic = (.error "Unknown heuristic type", cube, stats) := by
  unfold solve
  rw [if_neg hh]

/-- Witness for C6 at the name `"astar"`, a solved cube and reset
statistics. -/
theorem unknown_heuristic_rejected_before_search_witness :
    ("astar" : String) ∉ validHeuristics ∧
    solve resetStats solvedState "astar"
      = (.error "Unknown heuristic type", solvedState, resetStats) :=
  ⟨by decide,
    unknown_heuristic_rejected_before_search resetStats solvedState "astar" (by decide)⟩

/-- Claim C7 (corrected): `solve` never writes the Search Statistics
record at all — there is no reset at the start of a call; whatever values
the record held before the call (zeros only because the solver's
constructor created it that way) are still there afterwards. -/
theorem solve_preserves_stats (stats : Stats) (cube : CState)
    (heuristic : String) : (solve stats cube heuristic).2.2 = stats := by
  unfold solve
  by_cases h1 : heuristic ∈ validHeuristics
  · rw [if_pos h1]
    cases h2 : isSolved cube
    · rw [if_neg Bool.false_ne_true]
      cases h3 : truthy (fastBFS cube)
      · rw [if_neg Bool.false_ne_true]
        cases h4 : truthy (reverseSolve cube)
        · rw [if_neg Bool.false_ne_true]
        · rw [if_pos rfl]
      · rw [if_pos rfl]
    · rw [if_pos rfl]
  · rw [if_neg h1]

/-- Counterexample for C7 as stated: with non-reset pre-call statistics, a
`solve` call on a solved cube leaves them different from the reset
values. -/
theorem solve_does_not_reset_stats_cex :
    (solve ⟨5, true, 3, 7, 2⟩ solvedState "manhattan").2.2 ≠ resetStats := by
  decide

/-- Claim C8 (confirmed): for a recognized heuristic name and an
already-solved input state, `solve` returns the empty move sequence
immediately (before any strategy runs), and the input state is still
solved afterward. -/
theorem solved_input_returns_empty (stats : Stats) (cube : CState)
    (heuristic : String) (hh : heuristic ∈ validHeuristics)
    (hs : isSolved cube = true) :
    solve stats cube heuristic = (.ok (some []), cube, stats) ∧
    isSolved (solve stats cube heuristic).2.1 = true := by
  have h1 : solve stats cube heuristic = (.ok (some []), cube, stats) := by
    unfold solve
    rw [if_pos hh, if_pos hs]
  exact ⟨h1, by rw [h1]; exact hs⟩

/-- Witness for C8 at `"manhattan"` and the solved state. -/
theorem solved_input_returns_empty_witness :
    (("manhattan" : String) ∈ validHeuristics ∧ isSolved solvedState = true) ∧
    solve resetStats solvedState "manhattan"
      = (.ok (some []), solvedState, resetStats) :=
  ⟨⟨by decide, by decide⟩,
    (solved_input_returns_empty resetStats solvedState "manhattan"
      (by decide) (by decide)).1⟩

/-- Claim C9 (corrected): all four estimators return a natural number
that is 0 at the solved state and strictly positive on each of the 18
states one move away from solved; but 0 does not characterize the solved
state (see the counterexample), so "0 exactly at the solved state" fails.
The combined estimator is evaluated with exact rational arithmetic; every
value involved is well away from an integer boundary, where the source's
float truncation agrees. -/
theorem heuristics_zero_at_solved_positive_one_move :
    (manhattanDistance solvedState = 0 ∧ cornerEdgeHeuristic solvedState = 0 ∧
     layerCompletionHeuristic solvedState = 0 ∧ combinedHeuristic solvedState = 0) ∧
    ∀ m : Move, 0 < manhattanDistance (applyMove m solvedState) ∧
      0 < cornerEdgeHeuristic (applyMove m solvedState) ∧
      0 < layerCompletionHeuristic (applyMove m solvedState) ∧
      0 < combinedHeuristic (applyMove m solvedState) := by decide

/-- Counterexample for C9 as stated: a valid 9-of-each facelet state that
is not solved yet has misplaced-facelet estimate 0 (2 misplaced non-center
facelets, and `min(2,20)//4 = 0`); its combined estimate is 0 as well. -/
theorem manhattan_zero_on_unsolved_state :
    manhattanDistance swappedState = 0 ∧ combinedHeuristic swappedState = 0 ∧
    swappedState ≠ solvedState ∧ (∀ c, c < 6 → swappedState.count c = 9) := by
  decide

/-- Claim C10 (confirmed): `solve` never mutates the caller's cube: its
54-label state is the same before and after the call on every control
path (unknown heuristic, already solved, each of the three strategies);
every strategy searches on copies only. -/
theorem solve_preserves_input_cube (stats : Stats) (cube : CState)
    (heuristic : String) : (solve stats cube heuristic).2.1 = cube := by
  unfold solve
  by_cases h1 : heuristic ∈ validHeuristics
  · rw [if_pos h1]
    cases h2 : isSolved cube
    · rw [if_neg Bool.false_ne_true]
      cases h3 : truthy (fastBFS cube)
      · rw [if_neg Bool.false_ne_true]
        cases h4 : truthy (reverseSolve cube)
        · rw [if_neg Bool.false_ne_true]
        · rw [if_pos rfl]
      · rw [if_pos rfl]
    · rw [if_pos rfl]
  · rw [if_neg h1]
